import Mathlib

/-!
Verification of the eToro statement summariser (`etoro_summary.py`).

The Python program is embedded shallowly: the two worksheets become lists of
rows, pandas cells that may be missing or non-numeric become an explicit
`Cell` type, monetary values become rationals, and the mutated `metrics`
dictionary becomes a `Metrics` record threaded through fold functions that
mirror the program's loops statement by statement.
-/

namespace Etoro

/-- Boolean contiguous-substring test on character lists; `containsPat pat l`
is true when `pat` occurs contiguously inside `l` (Python's `pat in l`). -/
def containsPat (pat : List Char) : List Char → Bool
  | [] => pat.isEmpty
  | c :: cs => pat.isPrefixOf (c :: cs) || containsPat pat cs

/-- Python's `pat in s` substring test on strings. -/
def strContains (s pat : String) : Bool :=
  containsPat pat.data s.data

/-- A pandas cell holding the amount of a transaction row: missing (`NaN`),
a numeric value, or a present value on which `float()` raises. -/
inductive Cell where
  | na : Cell
  | num (q : ℚ) : Cell
  | bad : Cell
deriving DecidableEq

/-- One row of the `Financial Summary` sheet: the `Name` cell (missing or a
string) and the cell of the resolved amount column. -/
structure TxRow where
  name : Option String
  amount : Cell
deriving DecidableEq

/-- One row of the `Account Summary` sheet: the `Details` label cell and the
second (positional) value cell. -/
structure AccountRow where
  details : Option String
  value : Option ℚ
deriving DecidableEq

/-- The `metrics` dictionary of `process_etoro_statement`, with the eleven
keys initialised to zero (lines 36-48 of the source). -/
structure Metrics where
  totalDeposits : ℚ := 0
  totalWithdrawals : ℚ := 0
  netInvestment : ℚ := 0
  realizedGains : ℚ := 0
  dividendIncome : ℚ := 0
  otherIncome : ℚ := 0
  totalExpensesAndFees : ℚ := 0
  netRealizedProfit : ℚ := 0
  currentRealizedEquity : ℚ := 0
  currentUnrealizedEquity : ℚ := 0
  unrealizedProfit : ℚ := 0
deriving DecidableEq

/-- The freshly initialised metrics dictionary. -/
def initMetrics : Metrics := {}

/-- One iteration of the `Account Summary` loop (source lines 51-62):
for a recognised `Details` label with a non-missing value cell, overwrite
the corresponding metric. -/
def accountStep (m : Metrics) (r : AccountRow) : Metrics :=
  match r.details, r.value with
  | some d, some v =>
      if d = "Deposits" then { m with totalDeposits := v }
      else if d = "Withdrawals" then { m with totalWithdrawals := v }
      else if d = "Ending Realized Equity" then { m with currentRealizedEquity := v }
      else if d = "Ending Unrealized Equity" then { m with currentUnrealizedEquity := v }
      else m
  | _, _ => m

/-- The ordered list of exact amount-column header variants (source lines 68-73). -/
def amount_columns : List String :=
  ["Amount\r\n in (USD)", "Amount in (USD)", "Amount\nin (USD)", "Amount (USD)"]

/-- Resolution of the amount column (source lines 75-85): first exact variant
present among the sheet's columns, then the first column containing both
"Amount" and "USD". -/
def findAmountColumn (cols : List String) : Option String :=
  match amount_columns.find? (fun c => cols.contains c) with
  | some c => some c
  | none => cols.find? (fun c => strContains c "Amount" && strContains c "USD")

/-- Python's `s.lower()`, character by character (the names tested against
are plain ASCII). -/
def lowerStr (s : String) : String :=
  ⟨s.data.map Char.toLower⟩

/-- The four metric buckets a transaction row can be classified into. -/
inductive Bucket where
  | realizedGains
  | dividendIncome
  | expensesAndFees
  | otherIncome
deriving DecidableEq

/-- The classification chain of source lines 104-111, as the `if/elif`
cascade written in the code; `none` when no branch fires. -/
def classify (name : String) (amount : ℚ) : Option Bucket :=
  if strContains name "Profit or Loss" && decide (0 < amount) then
    some Bucket.realizedGains
  else if strContains name "Dividend" then
    some Bucket.dividendIncome
  else if strContains (lowerStr name) "fee" || strContains (lowerStr name) "charge" ||
      (decide (amount < 0) && !strContains name "Dividend" &&
        !strContains name "Profit or Loss") then
    some Bucket.expensesAndFees
  else if decide (0 < amount) && !strContains name "Profit or Loss" &&
      !strContains name "Dividend" then
    some Bucket.otherIncome
  else
    none

/-- One iteration of the `Financial Summary` loop (source lines 92-111):
rows lacking a name or an amount cell are skipped, a cell on which `float()`
raises is skipped by the `except` branch, and otherwise the classified
bucket is updated (`abs(amount)` for expenses, the signed amount elsewhere). -/
def txStep (m : Metrics) (r : TxRow) : Metrics :=
  match r.name, r.amount with
  | some name, Cell.num amount =>
      match classify name amount with
      | some Bucket.realizedGains => { m with realizedGains := m.realizedGains + amount }
      | some Bucket.dividendIncome => { m with dividendIncome := m.dividendIncome + amount }
      | some Bucket.expensesAndFees =>
          { m with totalExpensesAndFees := m.totalExpensesAndFees + |amount| }
      | some Bucket.otherIncome => { m with otherIncome := m.otherIncome + amount }
      | none => m
  | _, _ => m

/-- `process_etoro_statement` after the two sheets have loaded (source lines
36-125): account extraction, net investment, amount-column resolution with
the degraded early return, transaction classification, net realized profit,
and the guarded unrealized-profit computation. -/
def process_etoro_statement (acct : List AccountRow) (cols : List String)
    (txs : List TxRow) : Metrics :=
  let m1 := acct.foldl accountStep initMetrics
  let m2 := { m1 with netInvestment := m1.totalDeposits - |m1.totalWithdrawals| }
  match findAmountColumn cols with
  | none => m2
  | some _ =>
    let m3 := txs.foldl txStep m2
    let m4 := { m3 with netRealizedProfit :=
      m3.realizedGains + m3.dividendIncome + m3.otherIncome + m3.totalExpensesAndFees }
    if 0 < m4.currentUnrealizedEquity ∧ 0 < m4.currentRealizedEquity then
      { m4 with unrealizedProfit :=
        m4.currentUnrealizedEquity - m4.currentRealizedEquity }
    else m4

/-- The diagnostics printed by `process_etoro_statement` past loading: only
the amount-column-missing message (source line 88) is ever emitted. -/
def process_reports (cols : List String) : List String :=
  if findAmountColumn cols = none then
    ["ERROR: Could not find amount column in Financial Summary sheet"]
  else []

/-- The run of `process_etoro_statement` paired with its diagnostics. -/
def run_etoro (acct : List AccountRow) (cols : List String) (txs : List TxRow) :
    Metrics × List String :=
  (process_etoro_statement acct cols txs, process_reports cols)

/-- The two loaded sheets of a statement workbook. -/
structure Workbook where
  account : List AccountRow
  cols : List String
  txs : List TxRow

/-- `main`'s control flow (source lines 244-268): missing argument exits 1,
a workbook that fails to load exits 1 from inside the loader, and otherwise
the metrics are produced and the process ends normally with code 0. -/
def main_model (argv : Option (Option Workbook)) : Option Metrics × Nat :=
  match argv with
  | none => (none, 1)
  | some none => (none, 1)
  | some (some wb) =>
      (some (process_etoro_statement wb.account wb.cols wb.txs), 0)

/-- Two-digit zero-padded rendering of a number below 100. -/
def pad2 (n : ℕ) : String :=
  if n < 10 then "0" ++ toString n else toString n

/-- Fixed-point rendering with two decimals, modelling Python's `f"{x:.2f}"`
on a rational: round the magnitude to hundredths and prepend the sign. -/
def fmt2 (q : ℚ) : String :=
  let n : ℕ := (round (|q| * 100)).toNat
  (if q < 0 then "-" else "") ++ toString (n / 100) ++ "." ++ pad2 (n % 100)

/-- `calculate_roi` (source lines 235-241): the ROI value and its formatted
string, or `(0, "N/A")` when net investment is zero. -/
def calculate_roi (m : Metrics) : ℚ × String :=
  if m.netInvestment ≠ 0 then
    let roi := m.netRealizedProfit / |m.netInvestment| * 100
    (roi, (if 0 < roi then "+" else "") ++ fmt2 roi ++ "%")
  else (0, "N/A")

/-- Rule (1) of the specification's precedence list: name contains
"Profit or Loss" and the amount is positive. -/
def specRule1 (name : String) (amount : ℚ) : Bool :=
  strContains name "Profit or Loss" && decide (0 < amount)

/-- Rule (2) of the specification's precedence list: name contains
"Dividend". -/
def specRule2 (name : String) (_amount : ℚ) : Bool :=
  strContains name "Dividend"

/-- Rule (3) of the specification's precedence list: name contains "fee" or
"charge" case-insensitively, or the amount is negative with the name lacking
"Dividend" and "Profit or Loss". -/
def specRule3 (name : String) (amount : ℚ) : Bool :=
  strContains (lowerStr name) "fee" || strContains (lowerStr name) "charge" ||
    (decide (amount < 0) && !strContains name "Dividend" &&
      !strContains name "Profit or Loss")

/-- Rule (4) of the specification's precedence list: the amount is positive
and the name lacks "Profit or Loss" and "Dividend". -/
def specRule4 (name : String) (amount : ℚ) : Bool :=
  decide (0 < amount) && !strContains name "Profit or Loss" &&
    !strContains name "Dividend"

/-- The specification's classification rules in precedence order, each paired
with its target bucket. -/
def specRules : List ((String → ℚ → Bool) × Bucket) :=
  [(specRule1, Bucket.realizedGains),
   (specRule2, Bucket.dividendIncome),
   (specRule3, Bucket.expensesAndFees),
   (specRule4, Bucket.otherIncome)]

/-- Classification as the specification words it: the first rule of the
precedence list that matches determines the bucket; no match, no bucket. -/
def classifySpec (name : String) (amount : ℚ) : Option Bucket :=
  (specRules.find? (fun pr => pr.1 name amount)).map Prod.snd

/-- The ROI string as the specification words it: net realized profit over
the absolute net investment, times 100, sign-prefixed, two decimals, with a
trailing percent sign. -/
def roiFormatSpec (m : Metrics) : String :=
  let roi := m.netRealizedProfit / |m.netInvestment| * 100
  (if 0 < roi then "+" else "") ++ fmt2 roi ++ "%"

/-- A value of the flat output record: a raw number or the ROI string. -/
inductive CsvVal where
  | num (q : ℚ)
  | str (s : String)
deriving DecidableEq

/-- The flat two-column record written by `main` (source lines 265-268):
`metrics.items()` in dictionary insertion order — the eleven raw metric
values followed by the ROI string that `format_financial_table` appended
to the dictionary (source line 133). -/
def csvRecord (m : Metrics) : List (String × CsvVal) :=
  [("Total Deposits", CsvVal.num m.totalDeposits),
   ("Total Withdrawals", CsvVal.num m.totalWithdrawals),
   ("Net Investment", CsvVal.num m.netInvestment),
   ("Realized Gains", CsvVal.num m.realizedGains),
   ("Dividend Income", CsvVal.num m.dividendIncome),
   ("Other Income", CsvVal.num m.otherIncome),
   ("Total Expenses and Fees", CsvVal.num m.totalExpensesAndFees),
   ("Net Realized Profit", CsvVal.num m.netRealizedProfit),
   ("Current Realized Equity", CsvVal.num m.currentRealizedEquity),
   ("Current Unrealized Equity", CsvVal.num m.currentUnrealizedEquity),
   ("Unrealized Profit", CsvVal.num m.unrealizedProfit),
   ("Return on Investment", CsvVal.str (calculate_roi m).2)]

/-- Non-overlapping left-to-right replacement of `pat` by `rep` on character
lists, modelling Python's `str.replace`; the fuel argument (instantiated with
the input length, which every recursive call strictly decreases) makes the
recursion structural. -/
def replaceAux (pat rep : List Char) : ℕ → List Char → List Char
  | _, [] => []
  | 0, l => l
  | fuel + 1, c :: cs =>
      if pat ≠ [] ∧ pat.isPrefixOf (c :: cs) then
        rep ++ replaceAux pat rep fuel ((c :: cs).drop pat.length)
      else
        c :: replaceAux pat rep fuel cs

/-- Python's `s.replace(pat, rep)` on strings. -/
def pyReplace (s pat rep : String) : String :=
  ⟨replaceAux pat.data rep.data s.data.length s.data⟩

/-- The output file name computed by `main` (source line 267):
`file_path.replace('.xlsx', '_summary.csv')`. -/
def csv_path (file_path : String) : String :=
  pyReplace file_path ".xlsx" "_summary.csv"

/-! ### Preservation lemmas for the two folds -/

/-- The account-summary loop touches only the deposit, withdrawal and the
two equity fields. -/
theorem accountStep_keeps (m : Metrics) (r : AccountRow) :
    (accountStep m r).realizedGains = m.realizedGains ∧
    (accountStep m r).dividendIncome = m.dividendIncome ∧
    (accountStep m r).otherIncome = m.otherIncome ∧
    (accountStep m r).totalExpensesAndFees = m.totalExpensesAndFees ∧
    (accountStep m r).netRealizedProfit = m.netRealizedProfit ∧
    (accountStep m r).netInvestment = m.netInvestment ∧
    (accountStep m r).unrealizedProfit = m.unrealizedProfit := by
  rcases r with ⟨d, v⟩
  rcases d with _ | d <;> rcases v with _ | v <;> simp [accountStep] <;>
    split_ifs <;> simp

/-- Folding the account-summary loop touches only the deposit, withdrawal
and the two equity fields. -/
theorem foldl_accountStep_keeps (l : List AccountRow) (m : Metrics) :
    ((l.foldl accountStep m).realizedGains = m.realizedGains ∧
     (l.foldl accountStep m).dividendIncome = m.dividendIncome ∧
     (l.foldl accountStep m).otherIncome = m.otherIncome ∧
     (l.foldl accountStep m).totalExpensesAndFees = m.totalExpensesAndFees ∧
     (l.foldl accountStep m).netRealizedProfit = m.netRealizedProfit ∧
     (l.foldl accountStep m).netInvestment = m.netInvestment ∧
     (l.foldl accountStep m).unrealizedProfit = m.unrealizedProfit) := by
  induction l generalizing m with
  | nil => exact ⟨rfl, rfl, rfl, rfl, rfl, rfl, rfl⟩
  | cons r t ih =>
    simp only [List.foldl_cons]
    obtain ⟨h1, h2, h3, h4, h5, h6, h7⟩ := accountStep_keeps m r
    obtain ⟨g1, g2, g3, g4, g5, g6, g7⟩ := ih (accountStep m r)
    exact ⟨g1.trans h1, g2.trans h2, g3.trans h3, g4.trans h4, g5.trans h5,
      g6.trans h6, g7.trans h7⟩

/-- The transaction loop touches only the four bucket fields. -/
theorem txStep_keeps (m : Metrics) (r : TxRow) :
    (txStep m r).totalDeposits = m.totalDeposits ∧
    (txStep m r).totalWithdrawals = m.totalWithdrawals ∧
    (txStep m r).netInvestment = m.netInvestment ∧
    (txStep m r).netRealizedProfit = m.netRealizedProfit ∧
    (txStep m r).currentRealizedEquity = m.currentRealizedEquity ∧
    (txStep m r).currentUnrealizedEquity = m.currentUnrealizedEquity ∧
    (txStep m r).unrealizedProfit = m.unrealizedProfit := by
  rcases r with ⟨n, a⟩
  rcases n with _ | n <;> rcases a with _ | q | _ <;> simp [txStep]
  rcases h : classify n q with _ | b
  · simp [h]
  · rcases b <;> simp [h]

/-- Folding the transaction loop touches only the four bucket fields. -/
theorem foldl_txStep_keeps (l : List TxRow) (m : Metrics) :
    ((l.foldl txStep m).totalDeposits = m.totalDeposits ∧
     (l.foldl txStep m).totalWithdrawals = m.totalWithdrawals ∧
     (l.foldl txStep m).netInvestment = m.netInvestment ∧
     (l.foldl txStep m).netRealizedProfit = m.netRealizedProfit ∧
     (l.foldl txStep m).currentRealizedEquity = m.currentRealizedEquity ∧
     (l.foldl txStep m).currentUnrealizedEquity = m.currentUnrealizedEquity ∧
     (l.foldl txStep m).unrealizedProfit = m.unrealizedProfit) := by
  induction l generalizing m with
  | nil => exact ⟨rfl, rfl, rfl, rfl, rfl, rfl, rfl⟩
  | cons r t ih =>
    simp only [List.foldl_cons]
    obtain ⟨h1, h2, h3, h4, h5, h6, h7⟩ := txStep_keeps m r
    obtain ⟨g1, g2, g3, g4, g5, g6, g7⟩ := ih (txStep m r)
    exact ⟨g1.trans h1, g2.trans h2, g3.trans h3, g4.trans h4, g5.trans h5,
      g6.trans h6, g7.trans h7⟩

/-- A transaction row whose amount cell is missing or fails coercion leaves
the metrics untouched. -/
theorem txStep_skip (m : Metrics) (r : TxRow)
    (h : r.amount = Cell.na ∨ r.amount = Cell.bad) : txStep m r = m := by
  rcases r with ⟨n, a⟩
  rcases n with _ | n <;> rcases a with _ | q | _ <;> simp [txStep] <;> simp at h

/-- The transaction loop never decreases the expenses accumulator. -/
theorem txStep_tef_mono (m : Metrics) (r : TxRow) :
    m.totalExpensesAndFees ≤ (txStep m r).totalExpensesAndFees := by
  rcases r with ⟨n, a⟩
  rcases n with _ | n <;> rcases a with _ | q | _ <;> simp [txStep]
  rcases h : classify n q with _ | b
  · simp [h]
  · rcases b <;> simp [h] <;>
      first
        | exact le_refl _
        | exact le_add_of_nonneg_right (abs_nonneg q)

/-- Folding the transaction loop never decreases the expenses accumulator. -/
theorem foldl_txStep_tef_mono (l : List TxRow) (m : Metrics) :
    m.totalExpensesAndFees ≤ (l.foldl txStep m).totalExpensesAndFees := by
  induction l generalizing m with
  | nil => exact le_refl _
  | cons r t ih =>
    simp only [List.foldl_cons]
    exact le_trans (txStep_tef_mono m r) (ih (txStep m r))

/-! ### Claim theorems -/

/-- Claim C10: the Total Expenses and Fees metric returned by
`process_etoro_statement` is nonnegative for every input, since the only
statement that modifies it adds the absolute value of the amount; its stored
value is a positive magnitude, never a negative number. -/
theorem c10_expenses_nonneg (acct : List AccountRow) (cols : List String)
    (txs : List TxRow) :
    0 ≤ (process_etoro_statement acct cols txs).totalExpensesAndFees := by
  have h0 : (acct.foldl accountStep initMetrics).totalExpensesAndFees = 0 :=
    (foldl_accountStep_keeps acct initMetrics).2.2.2.1
  unfold process_etoro_statement
  dsimp only
  split
  · exact le_of_eq h0.symm
  · split_ifs <;>
      exact le_trans (le_of_eq h0.symm) (foldl_txStep_tef_mono txs _)

/-- Claim C5: for every input whose account-summary table yields
Deposits = D and Withdrawals = W, the returned metric set satisfies
Net Investment = D - abs(W). -/
theorem c5_net_investment (acct : List AccountRow) (cols : List String)
    (txs : List TxRow) (D W : ℚ)
    (hD : (acct.foldl accountStep initMetrics).totalDeposits = D)
    (hW : (acct.foldl accountStep initMetrics).totalWithdrawals = W) :
    (process_etoro_statement acct cols txs).netInvestment = D - |W| := by
  unfold process_etoro_statement
  dsimp only
  split
  · rw [← hD, ← hW]
  · split_ifs <;>
      exact ((foldl_txStep_keeps txs _).2.2.1).trans (by rw [← hD, ← hW])

/-- Witness for C5 at a concrete statement: deposits 1000 and withdrawals
-200 give net investment 800. -/
theorem c5_net_investment_witness :
    (([⟨some "Deposits", some 1000⟩, ⟨some "Withdrawals", some (-200)⟩] :
        List AccountRow).foldl accountStep initMetrics).totalDeposits = 1000 ∧
    (([⟨some "Deposits", some 1000⟩, ⟨some "Withdrawals", some (-200)⟩] :
        List AccountRow).foldl accountStep initMetrics).totalWithdrawals = -200 ∧
    (process_etoro_statement
        [⟨some "Deposits", some 1000⟩, ⟨some "Withdrawals", some (-200)⟩]
        ["Name"] []).netInvestment = 1000 - |(-200 : ℚ)| := by
  refine ⟨?_, ?_, ?_⟩
  · simp [accountStep, initMetrics]
  · simp [accountStep, initMetrics]
  · exact c5_net_investment _ _ _ 1000 (-200)
      (by simp [accountStep, initMetrics]) (by simp [accountStep, initMetrics])

/-- Claim C7: a transaction row whose amount cell is absent or fails numeric
coercion contributes to no bucket: the metrics and the emitted diagnostics
are identical to the run on the same input with that row removed. -/
theorem c7_skipped_row (acct : List AccountRow) (cols : List String)
    (pre post : List TxRow) (r : TxRow)
    (h : r.amount = Cell.na ∨ r.amount = Cell.bad) :
    run_etoro acct cols (pre ++ r :: post) = run_etoro acct cols (pre ++ post) := by
  have key : ∀ m : Metrics, (pre ++ r :: post).foldl txStep m = (pre ++ post).foldl txStep m := by
    intro m
    rw [List.foldl_append, List.foldl_append, List.foldl_cons, txStep_skip _ r h]
  unfold run_etoro process_etoro_statement
  dsimp only
  cases hf : findAmountColumn cols <;> simp only [hf]
  rw [key]

/-- Witness for C7: a row with a non-coercible amount cell leaves a concrete
run unchanged. -/
theorem c7_skipped_row_witness :
    run_etoro [⟨some "Deposits", some 1000⟩] ["Amount (USD)"]
        ([] ++ (⟨some "Bad row", Cell.bad⟩ : TxRow) :: []) =
      run_etoro [⟨some "Deposits", some 1000⟩] ["Amount (USD)"] ([] ++ []) :=
  c7_skipped_row _ _ [] [] _ (Or.inr rfl)

/-- Claim C2: Net Realized Profit is the literal sum of Realized Gains,
Dividend Income, Other Income and Total Expenses and Fees (the accumulated
positive magnitude); in particular a "Profit or Loss" row of +500, a
"Dividend" row of +50 and a "fee" row of -20 give 500 + 50 + 0 + 20 = 570. -/
theorem c2_net_realized_profit :
    (∀ (acct : List AccountRow) (cols : List String) (txs : List TxRow),
      (process_etoro_statement acct cols txs).netRealizedProfit =
        (process_etoro_statement acct cols txs).realizedGains +
        (process_etoro_statement acct cols txs).dividendIncome +
        (process_etoro_statement acct cols txs).otherIncome +
        (process_etoro_statement acct cols txs).totalExpensesAndFees) ∧
    (process_etoro_statement [] ["Name", "Amount (USD)"]
        [⟨some "Profit or Loss", Cell.num 500⟩, ⟨some "Dividend", Cell.num 50⟩,
         ⟨some "Withdrawal fee", Cell.num (-20)⟩]).netRealizedProfit = 570 := by
  constructor
  · intro acct cols txs
    obtain ⟨k1, k2, k3, k4, k5, _, _⟩ := foldl_accountStep_keeps acct initMetrics
    unfold process_etoro_statement
    dsimp only
    split
    · rw [k5, k1, k2, k3, k4]
      norm_num [initMetrics]
    · split_ifs <;> rfl
  · have e1 : classify "Profit or Loss" 500 = some Bucket.realizedGains := by decide
    have e2 : classify "Dividend" 50 = some Bucket.dividendIncome := by decide
    have e3 : classify "Withdrawal fee" (-20) = some Bucket.expensesAndFees := by decide
    have ef : findAmountColumn ["Name", "Amount (USD)"] = some "Amount (USD)" := by decide
    simp only [process_etoro_statement, List.foldl_cons, List.foldl_nil, txStep,
      ef, e1, e2, e3, initMetrics]
    norm_num

/-- The classification chain of the code coincides, branch by branch, with
the specification's four rules. -/
theorem classify_eq_rules (name : String) (amount : ℚ) :
    classify name amount =
      if specRule1 name amount then some Bucket.realizedGains
      else if specRule2 name amount then some Bucket.dividendIncome
      else if specRule3 name amount then some Bucket.expensesAndFees
      else if specRule4 name amount then some Bucket.otherIncome
      else none := rfl

/-- Claim C1: for every row with a name and a coercible amount, the code's
classification equals the specification's first-match precedence over the
four rules, assigning exactly one bucket or none. -/
theorem c1_classification (name : String) (amount : ℚ) :
    classify name amount = classifySpec name amount := by
  cases h1 : specRule1 name amount <;>
  cases h2 : specRule2 name amount <;>
  cases h3 : specRule3 name amount <;>
  cases h4 : specRule4 name amount <;>
    simp [classify_eq_rules, classifySpec, specRules, List.find?, h1, h2, h3, h4]

/-- Counterexample to C6 as stated: with the amount column absent and both
equities strictly positive (100 and 150), Unrealized Profit stays 0 instead
of equalling their difference 50. -/
theorem c6_counterexample :
    0 < (process_etoro_statement
        [⟨some "Ending Realized Equity", some 100⟩,
         ⟨some "Ending Unrealized Equity", some 150⟩] ["Name"] []).currentRealizedEquity ∧
    0 < (process_etoro_statement
        [⟨some "Ending Realized Equity", some 100⟩,
         ⟨some "Ending Unrealized Equity", some 150⟩] ["Name"] []).currentUnrealizedEquity ∧
    (process_etoro_statement
        [⟨some "Ending Realized Equity", some 100⟩,
         ⟨some "Ending Unrealized Equity", some 150⟩] ["Name"] []).unrealizedProfit ≠
      (process_etoro_statement
        [⟨some "Ending Realized Equity", some 100⟩,
         ⟨some "Ending Unrealized Equity", some 150⟩] ["Name"] []).currentUnrealizedEquity -
      (process_etoro_statement
        [⟨some "Ending Realized Equity", some 100⟩,
         ⟨some "Ending Unrealized Equity", some 150⟩] ["Name"] []).currentRealizedEquity := by
  have hf : findAmountColumn ["Name"] = none := by decide
  simp [process_etoro_statement, List.foldl_cons, List.foldl_nil, accountStep,
    initMetrics, hf]
  norm_num

/-- Claim C6 as amended: when the amount column is found, Unrealized Profit
equals Current Unrealized Equity minus Current Realized Equity if both are
strictly positive and stays zero otherwise; when the amount column is
missing, the computation is skipped and Unrealized Profit is zero
regardless of the equities. -/
theorem c6_unrealized_profit (acct : List AccountRow) (cols : List String)
    (txs : List TxRow) :
    ((findAmountColumn cols).isSome = true →
      ((0 < (process_etoro_statement acct cols txs).currentUnrealizedEquity ∧
        0 < (process_etoro_statement acct cols txs).currentRealizedEquity) →
        (process_etoro_statement acct cols txs).unrealizedProfit =
          (process_etoro_statement acct cols txs).currentUnrealizedEquity -
          (process_etoro_statement acct cols txs).currentRealizedEquity) ∧
      (¬ (0 < (process_etoro_statement acct cols txs).currentUnrealizedEquity ∧
          0 < (process_etoro_statement acct cols txs).currentRealizedEquity) →
        (process_etoro_statement acct cols txs).unrealizedProfit = 0)) ∧
    (findAmountColumn cols = none →
      (process_etoro_statement acct cols txs).unrealizedProfit = 0) := by
  obtain ⟨_, _, _, _, _, _, a7⟩ := foldl_accountStep_keeps acct initMetrics
  unfold process_etoro_statement
  dsimp only
  cases hf : findAmountColumn cols <;> simp only [hf]
  · constructor
    · intro hsome
      exact absurd hsome (by simp)
    · intro _
      exact a7
  · constructor
    · intro _
      obtain ⟨_, _, _, _, _, _, t7⟩ := foldl_txStep_keeps txs
        { acct.foldl accountStep initMetrics with
          netInvestment := (acct.foldl accountStep initMetrics).totalDeposits -
            |(acct.foldl accountStep initMetrics).totalWithdrawals| }
      split_ifs with hc
      · exact ⟨fun _ => rfl, fun hn => absurd hc hn⟩
      · exact ⟨fun hp => absurd hp hc, fun _ => t7.trans a7⟩
    · intro hnone
      exact absurd hnone (by simp)

/-- Witness for C6's amended statement at a concrete input with the amount
column present and both equities positive. -/
theorem c6_unrealized_profit_witness :
    (process_etoro_statement
        [⟨some "Ending Realized Equity", some 100⟩,
         ⟨some "Ending Unrealized Equity", some 150⟩]
        ["Amount (USD)"] []).unrealizedProfit =
      (process_etoro_statement
        [⟨some "Ending Realized Equity", some 100⟩,
         ⟨some "Ending Unrealized Equity", some 150⟩]
        ["Amount (USD)"] []).currentUnrealizedEquity -
      (process_etoro_statement
        [⟨some "Ending Realized Equity", some 100⟩,
         ⟨some "Ending Unrealized Equity", some 150⟩]
        ["Amount (USD)"] []).currentRealizedEquity :=
  (((c6_unrealized_profit
      [⟨some "Ending Realized Equity", some 100⟩,
       ⟨some "Ending Unrealized Equity", some 150⟩]
      ["Amount (USD)"] []).1 (by decide)).1 (by
    constructor <;>
      simp [process_etoro_statement, List.foldl_cons, List.foldl_nil,
        accountStep, initMetrics, (by decide :
          findAmountColumn ["Amount (USD)"] = some "Amount (USD)")]))

/-- Counterexample to C4 as stated: with equities 200 and 320 in the account
summary, the run without an amount column leaves Unrealized Profit at 0;
the run on the same account rows with the column present computes 120, so
the Unrealized Profit metric is not unaffected by the degraded path. -/
theorem c4_counterexample :
    findAmountColumn ["Name", "Date"] = none ∧
    (process_etoro_statement
        [⟨some "Ending Realized Equity", some 200⟩,
         ⟨some "Ending Unrealized Equity", some 320⟩]
        ["Name", "Date"] [⟨some "Dividend", Cell.num 5⟩]).unrealizedProfit = 0 ∧
    (process_etoro_statement
        [⟨some "Ending Realized Equity", some 200⟩,
         ⟨some "Ending Unrealized Equity", some 320⟩]
        ["Name", "Amount (USD)"] [⟨some "Dividend", Cell.num 5⟩]).unrealizedProfit = 120 ∧
    (0 : ℚ) ≠ 120 := by
  have hf : findAmountColumn ["Name", "Date"] = none := by decide
  have hg : findAmountColumn ["Name", "Amount (USD)"] = some "Amount (USD)" := by decide
  have e1 : classify "Dividend" 5 = some Bucket.dividendIncome := by decide
  refine ⟨hf, ?_, ?_, by norm_num⟩
  · simp [process_etoro_statement, List.foldl_cons, List.foldl_nil, accountStep,
      initMetrics, hf]
  · simp [process_etoro_statement, List.foldl_cons, List.foldl_nil, accountStep,
      txStep, initMetrics, hg, e1]
    norm_num

/-- Claim C4 as amended: when no amount column is found the condition is
reported and the function returns right after net investment: all
transaction-derived metrics are zero and the account-summary fields carry
the extracted values, but the Unrealized Profit computation is skipped too,
leaving it zero; the process still exits with code 0. -/
theorem c4_degraded_path (acct : List AccountRow) (cols : List String)
    (txs : List TxRow) (h : findAmountColumn cols = none) :
    (process_etoro_statement acct cols txs).realizedGains = 0 ∧
    (process_etoro_statement acct cols txs).dividendIncome = 0 ∧
    (process_etoro_statement acct cols txs).otherIncome = 0 ∧
    (process_etoro_statement acct cols txs).totalExpensesAndFees = 0 ∧
    (process_etoro_statement acct cols txs).netRealizedProfit = 0 ∧
    (process_etoro_statement acct cols txs).unrealizedProfit = 0 ∧
    (process_etoro_statement acct cols txs).totalDeposits =
      (acct.foldl accountStep initMetrics).totalDeposits ∧
    (process_etoro_statement acct cols txs).totalWithdrawals =
      (acct.foldl accountStep initMetrics).totalWithdrawals ∧
    (process_etoro_statement acct cols txs).currentRealizedEquity =
      (acct.foldl accountStep initMetrics).currentRealizedEquity ∧
    (process_etoro_statement acct cols txs).currentUnrealizedEquity =
      (acct.foldl accountStep initMetrics).currentUnrealizedEquity ∧
    (process_etoro_statement acct cols txs).netInvestment =
      (acct.foldl accountStep initMetrics).totalDeposits -
        |(acct.foldl accountStep initMetrics).totalWithdrawals| ∧
    process_reports cols =
      ["ERROR: Could not find amount column in Financial Summary sheet"] ∧
    (main_model (some (some ⟨acct, cols, txs⟩))).2 = 0 := by
  obtain ⟨k1, k2, k3, k4, k5, _, k7⟩ := foldl_accountStep_keeps acct initMetrics
  have hp : process_etoro_statement acct cols txs =
      { acct.foldl accountStep initMetrics with
        netInvestment := (acct.foldl accountStep initMetrics).totalDeposits -
          |(acct.foldl accountStep initMetrics).totalWithdrawals| } := by
    unfold process_etoro_statement
    dsimp only
    rw [h]
  rw [hp]
  refine ⟨k1, k2, k3, k4, k5, k7, rfl, rfl, rfl, rfl, rfl, ?_, rfl⟩
  simp [process_reports, h]

/-- Witness for C4's amended statement at a concrete degraded input. -/
theorem c4_degraded_path_witness :
    findAmountColumn ["Details"] = none ∧
    (process_etoro_statement [⟨some "Deposits", some 700⟩] ["Details"]
        [⟨some "Fee", Cell.num (-3)⟩]).realizedGains = 0 ∧
    process_reports ["Details"] =
      ["ERROR: Could not find amount column in Financial Summary sheet"] :=
  ⟨by decide,
   (c4_degraded_path [⟨some "Deposits", some 700⟩] ["Details"]
      [⟨some "Fee", Cell.num (-3)⟩] (by decide)).1,
   (c4_degraded_path [⟨some "Deposits", some 700⟩] ["Details"]
      [⟨some "Fee", Cell.num (-3)⟩] (by decide)).2.2.2.2.2.2.2.2.2.2.2.1⟩

/-- A string ending in a percent sign is never the marker "N/A". -/
theorem append_percent_ne_na (s : String) : s ++ "%" ≠ "N/A" := by
  intro h
  have e1 : "%".data = ['%'] := by decide
  have h2 : s.data ++ ['%'] = "N/A".data := by
    rw [← e1, ← String.data_append, h]
  have h3 := congrArg List.getLast? h2
  rw [List.getLast?_concat] at h3
  have h4 : "N/A".data.getLast? = some 'A' := by decide
  rw [h4] at h3
  exact absurd h3 (by decide)

/-- Claim C3: `calculate_roi` returns the literal string "N/A" precisely
when Net Investment is zero, and otherwise returns the sign-prefixed,
two-decimal, percent-terminated formatting of
Net Realized Profit / abs(Net Investment) * 100. -/
theorem c3_roi (m : Metrics) :
    ((calculate_roi m).2 = "N/A" ↔ m.netInvestment = 0) ∧
    (m.netInvestment ≠ 0 → (calculate_roi m).2 = roiFormatSpec m) := by
  by_cases h : m.netInvestment = 0
  · refine ⟨?_, fun hn => absurd h hn⟩
    simp [calculate_roi, h]
  · refine ⟨?_, fun _ => by simp [calculate_roi, roiFormatSpec, h]⟩
    constructor
    · intro hc
      rw [calculate_roi, if_pos h] at hc
      dsimp only at hc
      exact absurd hc (append_percent_ne_na _)
    · intro h0
      exact absurd h0 h

/-- Witness for C3 at net investment 100 and net realized profit 25. -/
theorem c3_roi_witness :
    ((calculate_roi { netInvestment := 100, netRealizedProfit := 25 }).2 = "N/A" ↔
      ({ netInvestment := 100, netRealizedProfit := 25 } : Metrics).netInvestment = 0) ∧
    (calculate_roi { netInvestment := 100, netRealizedProfit := 25 }).2 =
      roiFormatSpec { netInvestment := 100, netRealizedProfit := 25 } :=
  ⟨(c3_roi _).1, (c3_roi _).2 (by norm_num)⟩

/-- Claim C8: looking each metric name up in the flat output record returns
exactly the raw value underlying the console report, and the ROI entry is
exactly the formatted ROI string — independent of the display-only sign
forcing, zero suppression and coloring. -/
theorem c8_record_roundtrip (m : Metrics) :
    (csvRecord m).lookup "Total Deposits" = some (CsvVal.num m.totalDeposits) ∧
    (csvRecord m).lookup "Total Withdrawals" = some (CsvVal.num m.totalWithdrawals) ∧
    (csvRecord m).lookup "Net Investment" = some (CsvVal.num m.netInvestment) ∧
    (csvRecord m).lookup "Realized Gains" = some (CsvVal.num m.realizedGains) ∧
    (csvRecord m).lookup "Dividend Income" = some (CsvVal.num m.dividendIncome) ∧
    (csvRecord m).lookup "Other Income" = some (CsvVal.num m.otherIncome) ∧
    (csvRecord m).lookup "Total Expenses and Fees" =
      some (CsvVal.num m.totalExpensesAndFees) ∧
    (csvRecord m).lookup "Net Realized Profit" = some (CsvVal.num m.netRealizedProfit) ∧
    (csvRecord m).lookup "Current Realized Equity" =
      some (CsvVal.num m.currentRealizedEquity) ∧
    (csvRecord m).lookup "Current Unrealized Equity" =
      some (CsvVal.num m.currentUnrealizedEquity) ∧
    (csvRecord m).lookup "Unrealized Profit" = some (CsvVal.num m.unrealizedProfit) ∧
    (csvRecord m).lookup "Return on Investment" =
      some (CsvVal.str (calculate_roi m).2) := by
  simp [csvRecord, List.lookup]

/-- When the pattern occurs in `l ++ pat` only as the final suffix, the
replacement rewrites exactly that suffix. -/
theorem replaceAux_tail (pat rep : List Char) (hne : pat ≠ []) :
    ∀ (l : List Char) (fuel : ℕ), (l ++ pat).length ≤ fuel →
      containsPat pat (l ++ pat.dropLast) = false →
      replaceAux pat rep fuel (l ++ pat) = l ++ rep := by
  intro l
  induction l with
  | nil =>
    intro fuel hfuel hcon
    rcases pat with _ | ⟨p, ps⟩
    · exact absurd rfl hne
    rcases fuel with _ | f
    · simp at hfuel
    have hpre : (p :: ps).isPrefixOf (p :: ps) = true :=
      List.isPrefixOf_iff_prefix.mpr List.prefix_rfl
    simp only [List.nil_append, replaceAux, hpre, ne_eq, reduceCtorEq,
      not_false_eq_true, and_self, if_true, List.drop_length, List.append_nil]
  | cons c t ih =>
    intro fuel hfuel hcon
    rcases fuel with _ | f
    · simp at hfuel
    have hsplit : pat.isPrefixOf (c :: (t ++ pat.dropLast)) = false ∧
        containsPat pat (t ++ pat.dropLast) = false := by
      simp only [List.cons_append, containsPat, Bool.or_eq_false_iff] at hcon
      exact hcon
    have hnp : pat.isPrefixOf (c :: (t ++ pat)) = false := by
      cases hx : pat.isPrefixOf (c :: (t ++ pat)) with
      | false => rfl
      | true =>
        exfalso
        have hpfx : pat <+: (c :: (t ++ pat)) := List.isPrefixOf_iff_prefix.mp hx
        have hq : (c :: (t ++ pat.dropLast)) <+: (c :: (t ++ pat)) := by
          refine ⟨[pat.getLast hne], ?_⟩
          simp only [List.cons_append, List.append_assoc,
            List.dropLast_concat_getLast hne]
        have hlen : pat.length ≤ (c :: (t ++ pat.dropLast)).length := by
          have h1 : 1 ≤ pat.length := List.length_pos.mpr hne
          simp only [List.length_cons, List.length_append, List.length_dropLast]
          omega
        have hfx : pat <+: (c :: (t ++ pat.dropLast)) :=
          List.prefix_of_prefix_length_le hpfx hq hlen
        have : pat.isPrefixOf (c :: (t ++ pat.dropLast)) = true :=
          List.isPrefixOf_iff_prefix.mpr hfx
        rw [this] at hsplit
        exact Bool.noConfusion hsplit.1
    have hlen2 : (t ++ pat).length ≤ f := by
      simp only [List.cons_append, List.length_cons] at hfuel
      omega
    simp only [List.cons_append, replaceAux]
    rw [if_neg (fun hb => Bool.noConfusion (hnp.symm.trans hb.2))]
    exact congrArg (c :: ·) (ih f hlen2 hsplit.2)

/-- Counterexample to C9 as stated: the input path "data.xls" has an
extension other than ".xlsx", and the output name is the unchanged input
path — no "_summary" suffix is appended and the extension is not replaced. -/
theorem c9_counterexample :
    csv_path "data.xls" = "data.xls" ∧ csv_path "data.xls" ≠ "data_summary.csv" := by
  constructor <;> decide

/-- Claim C9 as amended: for input paths in which ".xlsx" occurs only as the
final extension, the output name keeps the base name and carries the
"_summary" suffix with the ".csv" extension; paths without such a final
".xlsx" merely have every ".xlsx" occurrence textually replaced, which can
leave the name unchanged. -/
theorem c9_output_name (base : String)
    (h : strContains (base ++ ".xls") ".xlsx" = false) :
    csv_path (base ++ ".xlsx") = base ++ "_summary.csv" := by
  have hdata : (base ++ ".xlsx").data = base.data ++ ".xlsx".data :=
    String.data_append base ".xlsx"
  have hcon : containsPat ".xlsx".data (base.data ++ ".xlsx".data.dropLast) = false := by
    have e : ".xlsx".data.dropLast = ".xls".data := by decide
    rw [e]
    rw [strContains, String.data_append] at h
    exact h
  have hne : (".xlsx".data : List Char) ≠ [] := by decide
  apply String.ext
  show replaceAux ".xlsx".data "_summary.csv".data
      (base ++ ".xlsx").data.length (base ++ ".xlsx").data =
    (base ++ "_summary.csv").data
  rw [String.data_append base "_summary.csv", hdata,
    replaceAux_tail ".xlsx".data "_summary.csv".data hne base.data
      (base.data ++ ".xlsx".data).length (le_refl _) hcon]

/-- Witness for C9's amended statement on the path "report.xlsx". -/
theorem c9_output_name_witness :
    strContains ("report" ++ ".xls") ".xlsx" = false ∧
    csv_path ("report" ++ ".xlsx") = "report" ++ "_summary.csv" :=
  ⟨by decide, c9_output_name "report" (by decide)⟩

end Etoro
